import Mathlib

/-!
Shallow embedding of `src/amplifier_collection_html_tools/cli.py`.

The program's logic lives in three places:
  * `extract_html_from_output`: four ordered extraction rules (three regex
    searches with `re.DOTALL | re.IGNORECASE`, then a fallback using
    case-sensitive `in` / `find` / `rfind`);
  * `generate_filename`: slugs the description into a default filename;
  * `main` (post-invocation part): checks truthiness of the extracted
    document, resolves the output path (`args.output or generate_filename`),
    writes the file and reports `len(html)` as the size.

Strings are modelled as `List Char`.  Python's `str` methods are modelled at
the ASCII level (`str.lower`, `str.split`, `str.isalnum`, `str.strip` are
full-Unicode in Python; every input in this development is ASCII apart from
explicit UTF-8 byte-length counterexamples, where only the byte length of a
character matters).  The three regular expressions in the source are of the
shape  literal-pre  lazy-gap  literal-post  under DOTALL and IGNORECASE, so
their search semantics is: leftmost starting position at which the literal
pre matches (case-insensitively) and some occurrence of the literal post
follows, with the lazy gap taking the nearest such post occurrence.
`searchLazy` implements exactly that.
-/

/-- ASCII whitespace, the characters `str.strip()` removes from ASCII text. -/
def pyIsSpace (c : Char) : Bool :=
  c = ' ' || c = '\t' || c = '\n' || c = '\r' || c = '\x0b' || c = '\x0c'

/-- ASCII alphanumeric character, as tested by `str.isalnum` per character. -/
def isAlnumChar (c : Char) : Bool :=
  c.isAlpha || c.isDigit

/-- Python `str.isalnum()`: nonempty and every character alphanumeric. -/
def pyIsAlnum (w : List Char) : Bool :=
  !w.isEmpty && w.all isAlnumChar

/-- Case-insensitive "pattern matches at the head of the subject", the
character comparison `re.IGNORECASE` performs on ASCII literals. -/
def startsWithCI : List Char → List Char → Bool
  | [], _ => true
  | _ :: _, [] => false
  | p :: ps, c :: cs => (p.toLower == c.toLower) && startsWithCI ps cs

/-- Case-sensitive "pattern matches at the head of the subject". -/
def startsWithCS : List Char → List Char → Bool
  | [], _ => true
  | _ :: _, [] => false
  | p :: ps, c :: cs => (p == c) && startsWithCS ps cs

/-- Index of the first case-insensitive occurrence of `pat` in the subject. -/
def findCI (pat : List Char) : List Char → Option Nat
  | [] => if startsWithCI pat [] then some 0 else none
  | c :: t =>
    if startsWithCI pat (c :: t) then some 0
    else (findCI pat t).map (· + 1)

/-- Index of the first case-sensitive occurrence of `pat` in the subject,
modelling Python `str.find` before its `-1` sentinel is applied. -/
def findCSIdx (pat : List Char) : List Char → Option Nat
  | [] => if startsWithCS pat [] then some 0 else none
  | c :: t =>
    if startsWithCS pat (c :: t) then some 0
    else (findCSIdx pat t).map (· + 1)

/-- Index of the last case-sensitive occurrence of `pat` in the subject,
modelling Python `str.rfind` before its `-1` sentinel is applied. -/
def rfindCSIdx (pat : List Char) : List Char → Option Nat
  | [] => if startsWithCS pat [] then some 0 else none
  | c :: t =>
    match (rfindCSIdx pat t).map (· + 1) with
    | some k => some k
    | none => if startsWithCS pat (c :: t) then some 0 else none

/-- Python `pat in s` (case-sensitive substring containment). -/
def containsCS (pat s : List Char) : Bool :=
  (findCSIdx pat s).isSome

/-- Python `s.find(pat)`: index of first occurrence, `-1` when absent. -/
def pyFind (pat s : List Char) : Int :=
  match findCSIdx pat s with
  | some i => (i : Int)
  | none => -1

/-- Python `s.rfind(pat)`: index of last occurrence, `-1` when absent. -/
def pyRFind (pat s : List Char) : Int :=
  match rfindCSIdx pat s with
  | some i => (i : Int)
  | none => -1

/-- Strip characters satisfying `p` from both ends, the shape shared by
`str.strip()` and `str.strip('.,!?;:')`. -/
def stripBy (p : Char → Bool) (l : List Char) : List Char :=
  (l.dropWhile p).rdropWhile p

/-- Python `str.strip()` on ASCII text. -/
def pyStrip (l : List Char) : List Char :=
  stripBy pyIsSpace l

/-- Python slice `s[a:b]` for natural indices (`a ≤ b ≤ len` in all uses). -/
def sliceN (s : List Char) (a b : Nat) : List Char :=
  (s.take b).drop a

/-- Python slice `s[a:b]` for the fallback branch, where the guard ensures
`0 ≤ a` (a successful `find`) and `b = rfind + 7 ≥ 6 ≥ 0`. -/
def sliceII (s : List Char) (a b : Int) : List Char :=
  (s.take b.toNat).drop a.toNat

/-- One attempt of `searchLazy` at a fixed position: if the literal `pre`
matches here, the lazy gap ends at the nearest following occurrence of the
literal `post`; the returned index is the start of `post`, relative to this
position. -/
def tryAt (pre post s : List Char) : Option Nat :=
  if startsWithCI pre s then (findCI post (s.drop pre.length)).map (pre.length + ·)
  else none

/-- Search semantics of `re.search(pre + lazy-gap + post, s, DOTALL | IGNORECASE)`
with literal `pre` and `post`: the leftmost position `i` where `pre` matches
and some `post` follows, paired with the start `j` of the nearest such
`post`.  The matched span is `s[i : j + post.length]`. -/
def searchLazy (pre post : List Char) : List Char → Option (Nat × Nat)
  | [] => (tryAt pre post []).map (fun j => (0, j))
  | c :: t =>
    match tryAt pre post (c :: t) with
    | some j => some (0, j)
    | none => (searchLazy pre post t).map (fun ij => (ij.1 + 1, ij.2 + 1))

/-- Literal pre of pattern 1, `r'```html\n(.*?)\n```'`. -/
def fenceHtml : List Char := "```html\n".toList

/-- A bare code fence, the common pre of patterns 1 and 2. -/
def fenceTicks : List Char := "```".toList

/-- Literal post of patterns 1 and 2. -/
def nlFence : List Char := "\n```".toList

/-- The doctype token `<!DOCTYPE html>` in its canonical casing. -/
def doctypeTok : List Char := "<!DOCTYPE html>".toList

/-- The closing tag `</html>`. -/
def closeHtmlTag : List Char := "</html>".toList

/-- Literal pre of pattern 2, `r'```\n(<!DOCTYPE html>.*?)\n```'` (the group
starts 4 characters into the match). -/
def pat2pre : List Char := "```\n<!DOCTYPE html>".toList

/-- The function `extract_html_from_output` from `cli.py`: the three regex rules in order
(group 1 of each, stripped), then the case-sensitive fallback
`output[output.find('<!DOCTYPE html>') : output.rfind('</html>') + 7].strip()`
guarded by `start != -1 and end > start`, else `None`.
Group offsets: pattern 1's group starts `8 = len("```html\n")` characters
into the match; pattern 2's group starts `4 = len("```\n")` characters in;
pattern 3's group is the whole match, which ends `7 = len("</html>")`
characters after the post position. -/
def extract_html_from_output (output : List Char) : Option (List Char) :=
  match searchLazy fenceHtml nlFence output with
  | some (i, j) => some (pyStrip (sliceN output (i + 8) j))
  | none =>
  match searchLazy pat2pre nlFence output with
  | some (i, j) => some (pyStrip (sliceN output (i + 4) j))
  | none =>
  match searchLazy doctypeTok closeHtmlTag output with
  | some (i, j) => some (pyStrip (sliceN output i (j + 7)))
  | none =>
  if containsCS doctypeTok output then
    if pyFind doctypeTok output ≠ -1 ∧
        pyRFind closeHtmlTag output + 7 > pyFind doctypeTok output then
      some (pyStrip (sliceII output (pyFind doctypeTok output)
        (pyRFind closeHtmlTag output + 7)))
    else none
  else none

/-- Helper of `pySplit`: the accumulator holds the current word reversed. -/
def pySplitAux : List Char → List Char → List (List Char)
  | [], acc => if acc.isEmpty then [] else [acc.reverse]
  | c :: t, acc =>
    if pyIsSpace c then
      if acc.isEmpty then pySplitAux t [] else acc.reverse :: pySplitAux t []
    else pySplitAux t (c :: acc)

/-- Python `str.split()` with no argument: split on runs of whitespace,
discarding empty pieces. -/
def pySplit (s : List Char) : List (List Char) :=
  pySplitAux s []

/-- The punctuation set of `word.strip('.,!?;:')`. -/
def puncts : List Char := ".,!?;:".toList

/-- The list the generator expression of `generate_filename` produces:
`words = description.lower().split()[:4]`, then
`word.strip('.,!?;:') for word in words if word.isalnum() or '-' in word`.
Note the filter tests the word before stripping. -/
def keptWords (description : List Char) : List (List Char) :=
  (((pySplit (description.map Char.toLower)).take 4).filter
    (fun w => pyIsAlnum w || w.contains '-')).map (stripBy (puncts.contains ·))

/-- The function `generate_filename` from `cli.py`: hyphen-join of `keptWords`, plus the
`.html` extension. -/
def generate_filename (description : List Char) : List Char :=
  List.intercalate ("-".toList) (keptWords description) ++ ".html".toList

/-- Number of whitespace-separated words of the description that are
alphanumeric (after lower-casing, which preserves alphanumericity). -/
def alnumWordCount (description : List Char) : Nat :=
  ((pySplit (description.map Char.toLower)).filter pyIsAlnum).length

/-- The resolution `output_file = args.output or generate_filename(description)`
from `main`: Python's `or` falls through on a falsy (empty or absent) value. -/
def resolvedOutput (outputArg : Option (List Char)) (description : List Char) :
    List Char :=
  match outputArg with
  | some p => if p.isEmpty then generate_filename description else p
  | none => generate_filename description

/-- Byte length of the UTF-8 encoding of one character, the contribution of
the character to the size of the file written with `encoding='utf-8'`. -/
def charUtf8Size (c : Char) : Nat :=
  if c.toNat < 0x80 then 1
  else if c.toNat < 0x800 then 2
  else if c.toNat < 0x10000 then 3
  else 4

/-- Byte length of the UTF-8 encoding of a string. -/
def utf8Len (l : List Char) : Nat :=
  (l.map charUtf8Size).sum

/-- Outcome of the part of `main` that follows the agent invocation:
either the extraction-failure path (`if not html:` — prints the failure
message to stderr and exits 1, writing nothing), or the success path with
the resolved output path and the reported size `len(html)`. -/
inductive MainOutcome where
  | extractionFailure : MainOutcome
  | success (path : List Char) (reportedSize : Nat) : MainOutcome
  deriving DecidableEq

/-- The post-invocation part of `main` from `cli.py`:
`html = extract_html_from_output(output)`, the truthiness check
`if not html:` (absent or empty both fail), the output-path resolution, and
the success report printing `len(html)` as the size. -/
def mainAfterInvoke (output : List Char) (outputArg : Option (List Char))
    (description : List Char) : MainOutcome :=
  match extract_html_from_output output with
  | none => MainOutcome.extractionFailure
  | some doc =>
    if doc.isEmpty then MainOutcome.extractionFailure
    else MainOutcome.success (resolvedOutput outputArg description) doc.length

/-- Process exit status of each outcome of `mainAfterInvoke`. -/
def exitCode : MainOutcome → Nat
  | MainOutcome.extractionFailure => 1
  | MainOutcome.success _ _ => 0

/-! ## Helper lemmas -/

/-- Stripping both ends is idempotent: the head of the result still fails `p`
(it is the head of the front-stripped list), so a second pass removes
nothing. -/
theorem stripBy_idem (p : Char → Bool) (l : List Char) :
    stripBy p (stripBy p l) = stripBy p l := by
  have h1 : List.dropWhile p (List.dropWhile p l) = List.dropWhile p l :=
    List.dropWhile_idempotent p l
  have hpre : ((List.dropWhile p l).rdropWhile p) <+: List.dropWhile p l :=
    List.rdropWhile_prefix p _
  have hdw : List.dropWhile p ((List.dropWhile p l).rdropWhile p)
      = (List.dropWhile p l).rdropWhile p := by
    obtain ⟨t, ht⟩ := hpre
    cases hv : (List.dropWhile p l).rdropWhile p with
    | nil => simp
    | cons c y =>
      rw [hv] at ht
      have hpc : ¬ p c = true := by
        intro hpc
        rw [← ht, List.cons_append, List.dropWhile_cons_of_pos hpc] at h1
        have hlen : (List.dropWhile p (y ++ t)).length ≤ (y ++ t).length :=
          (List.dropWhile_sublist p).length_le
        rw [h1] at hlen
        simp only [List.length_cons, List.length_append] at hlen
        omega
      exact List.dropWhile_cons_of_neg hpc
  show ((List.dropWhile p (stripBy p l)).rdropWhile p) = stripBy p l
  show ((List.dropWhile p ((List.dropWhile p l).rdropWhile p)).rdropWhile p) = _
  rw [hdw, List.rdropWhile_idempotent]
  rfl

/-- A case-insensitive match of `a ++ b` at the head is in particular a
case-insensitive match of `a`. -/
theorem startsWithCI_append (a b s : List Char)
    (h : startsWithCI (a ++ b) s = true) : startsWithCI a s = true := by
  induction a generalizing s with
  | nil => rfl
  | cons p ps ih =>
    cases s with
    | nil => simp [startsWithCI] at h
    | cons c cs =>
      rw [List.cons_append, startsWithCI, Bool.and_eq_true] at h
      rw [startsWithCI, Bool.and_eq_true]
      exact ⟨h.1, ih cs h.2⟩

/-- A case-sensitive match at the head is a case-insensitive one. -/
theorem startsWithCS_ci (pat s : List Char)
    (h : startsWithCS pat s = true) : startsWithCI pat s = true := by
  induction pat generalizing s with
  | nil => rfl
  | cons p ps ih =>
    cases s with
    | nil => simp [startsWithCS] at h
    | cons c cs =>
      rw [startsWithCS, Bool.and_eq_true, beq_iff_eq] at h
      rw [startsWithCI, Bool.and_eq_true]
      exact ⟨by rw [h.1, beq_self_eq_true], ih cs h.2⟩

/-- If a pattern occurs nowhere (case-insensitively), neither does any
extension of it. -/
theorem findCI_append_none (a b s : List Char)
    (h : findCI a s = none) : findCI (a ++ b) s = none := by
  induction s with
  | nil =>
    rw [findCI] at h ⊢
    by_cases hs : startsWithCI (a ++ b) [] = true
    · rw [if_pos (startsWithCI_append a b [] hs)] at h
      exact absurd h (by simp)
    · rw [if_neg hs]
  | cons c t ih =>
    rw [findCI] at h ⊢
    by_cases hs : startsWithCI a (c :: t) = true
    · rw [if_pos hs] at h
      exact absurd h (by simp)
    · rw [if_neg hs] at h
      have hs2 : ¬ startsWithCI (a ++ b) (c :: t) = true :=
        fun hx => hs (startsWithCI_append a b _ hx)
      rw [if_neg hs2]
      rw [Option.map_eq_none'] at h
      rw [ih h]
      rfl

/-- If a pattern occurs nowhere case-insensitively, it occurs nowhere
case-sensitively either. -/
theorem findCSIdx_none (pat s : List Char)
    (h : findCI pat s = none) : findCSIdx pat s = none := by
  induction s with
  | nil =>
    rw [findCI] at h
    rw [findCSIdx]
    by_cases hs : startsWithCS pat [] = true
    · rw [if_pos (startsWithCS_ci pat [] hs)] at h
      exact absurd h (by simp)
    · rw [if_neg hs]
  | cons c t ih =>
    rw [findCI] at h
    rw [findCSIdx]
    by_cases hs : startsWithCS pat (c :: t) = true
    · rw [if_pos (startsWithCS_ci pat _ hs)] at h
      exact absurd h (by simp)
    · rw [if_neg hs]
      by_cases hci : startsWithCI pat (c :: t) = true
      · rw [if_pos hci] at h
        exact absurd h (by simp)
      · rw [if_neg hci, Option.map_eq_none'] at h
        rw [ih h]
        rfl

/-- A lazy pre/post search fails whenever its pre literal occurs nowhere. -/
theorem searchLazy_none (pre post s : List Char)
    (h : findCI pre s = none) : searchLazy pre post s = none := by
  induction s with
  | nil =>
    rw [findCI] at h
    by_cases hs : startsWithCI pre [] = true
    · rw [if_pos hs] at h
      exact absurd h (by simp)
    · rw [searchLazy, tryAt, if_neg hs]
      rfl
  | cons c t ih =>
    rw [findCI] at h
    by_cases hs : startsWithCI pre (c :: t) = true
    · rw [if_pos hs] at h
      exact absurd h (by simp)
    · rw [if_neg hs, Option.map_eq_none'] at h
      rw [searchLazy, tryAt, if_neg hs]
      rw [ih h]
      rfl

/-- Scenario A of the spec, evaluated: the labeled-fence rule isolates the
document. -/
theorem scenarioA_eval : extract_html_from_output
    "Here:\n```html\n<!DOCTYPE html><html><body>Hi</body></html>\n```".toList
    = some "<!DOCTYPE html><html><body>Hi</body></html>".toList := by decide

/-- Case-insensitive head matching only depends on the lower-cased text. -/
theorem startsWithCI_congr (pat : List Char) {s t : List Char}
    (h : s.map Char.toLower = t.map Char.toLower) :
    startsWithCI pat s = startsWithCI pat t := by
  induction pat generalizing s t with
  | nil => rfl
  | cons p ps ih =>
    cases s with
    | nil =>
      cases t with
      | nil => rfl
      | cons d t' => simp at h
    | cons c s' =>
      cases t with
      | nil => simp at h
      | cons d t' =>
        rw [List.map_cons, List.map_cons, List.cons.injEq] at h
        rw [startsWithCI, startsWithCI, h.1, ih h.2]

/-- Case-insensitive search only depends on the lower-cased text. -/
theorem findCI_congr (pat : List Char) {s t : List Char}
    (h : s.map Char.toLower = t.map Char.toLower) :
    findCI pat s = findCI pat t := by
  induction s generalizing t with
  | nil =>
    cases t with
    | nil => rfl
    | cons d t' => simp at h
  | cons c s' ih =>
    cases t with
    | nil => simp at h
    | cons d t' =>
      have h' := h
      rw [List.map_cons, List.map_cons, List.cons.injEq] at h'
      rw [findCI, findCI, startsWithCI_congr pat h, ih h'.2]

/-- One lazy-search attempt only depends on the lower-cased text. -/
theorem tryAt_congr (pre post : List Char) {s t : List Char}
    (h : s.map Char.toLower = t.map Char.toLower) :
    tryAt pre post s = tryAt pre post t := by
  have hdrop : (s.drop pre.length).map Char.toLower
      = (t.drop pre.length).map Char.toLower := by
    rw [List.map_drop, List.map_drop, h]
  rw [tryAt, tryAt, startsWithCI_congr pre h, findCI_congr post hdrop]

/-- The search of each DOTALL-and-IGNORECASE pattern matches at the same
span on any two texts that agree up to letter casing. -/
theorem searchLazy_congr (pre post : List Char) {s t : List Char}
    (h : s.map Char.toLower = t.map Char.toLower) :
    searchLazy pre post s = searchLazy pre post t := by
  induction s generalizing t with
  | nil =>
    cases t with
    | nil => rfl
    | cons d t' => simp at h
  | cons c s' ih =>
    cases t with
    | nil => simp at h
    | cons d t' =>
      have h' := h
      rw [List.map_cons, List.map_cons, List.cons.injEq] at h'
      rw [searchLazy, searchLazy, tryAt_congr pre post h, ih h'.2]

/-- Characters failing the strip predicate survive front stripping. -/
theorem mem_dropWhile_of_neg {p : Char → Bool} {a : Char} {l : List Char}
    (ha : a ∈ l) (hp : p a = false) : a ∈ l.dropWhile p := by
  induction l with
  | nil => exact absurd ha (List.not_mem_nil a)
  | cons c t ih =>
    rw [List.dropWhile_cons]
    by_cases hc : p c = true
    · rw [if_pos hc]
      apply ih
      rcases List.mem_cons.mp ha with rfl | h
      · rw [hp] at hc
        exact absurd hc (by simp)
      · exact h
    · rw [if_neg hc]
      exact ha

/-- Characters failing the strip predicate survive two-sided stripping. -/
theorem mem_stripBy_of_neg {p : Char → Bool} {a : Char} {l : List Char}
    (ha : a ∈ l) (hp : p a = false) : a ∈ stripBy p l := by
  unfold stripBy List.rdropWhile
  have h2 : a ∈ (List.dropWhile p l).reverse :=
    List.mem_reverse.mpr (mem_dropWhile_of_neg ha hp)
  exact List.mem_reverse.mpr (mem_dropWhile_of_neg h2 hp)

/-- Stripping a list none of whose characters satisfy the predicate is the
identity. -/
theorem stripBy_eq_self_of_all {p : Char → Bool} {l : List Char}
    (h : ∀ c ∈ l, p c = false) : stripBy p l = l := by
  have h1 : List.dropWhile p l = l := by
    rw [List.dropWhile_eq_self_iff]
    intro hl
    rw [h _ (l.get_mem _ _)]
    simp
  show (List.dropWhile p l).rdropWhile p = l
  rw [h1, List.rdropWhile_eq_self_iff]
  intro hl
  rw [h _ (List.getLast_mem hl)]
  simp

/-- An alphanumeric character is not one of the stripped punctuation
characters `.,!?;:`. -/
theorem alnum_not_punct {c : Char} (h : isAlnumChar c = true) :
    puncts.contains c = false := by
  have hp : puncts = ['.', ',', '!', '?', ';', ':'] := rfl
  rw [hp]
  simp only [List.contains_cons, List.contains_nil, Bool.or_false,
    Bool.or_eq_false_iff]
  refine ⟨?_, ?_, ?_, ?_, ?_, ?_⟩ <;>
    · rw [beq_eq_false_iff_ne]
      rintro rfl
      exact absurd h (by decide)

/-- Every word the filename generator keeps strips to a nonempty string:
an alphanumeric word has no strippable character at all, and a word kept
for containing a hyphen keeps that hyphen (which is not stripped). -/
theorem keptWords_ne_nil (d : List Char) :
    ∀ w ∈ keptWords d, w ≠ [] := by
  intro w hw
  unfold keptWords at hw
  rw [List.mem_map] at hw
  obtain ⟨w', hw', rfl⟩ := hw
  rw [List.mem_filter, Bool.or_eq_true] at hw'
  rcases hw'.2 with halnum | hdash
  · rw [pyIsAlnum, Bool.and_eq_true] at halnum
    have hne : w' ≠ [] := by
      intro h0
      rw [h0] at halnum
      exact absurd halnum.1 (by decide)
    have hall : ∀ c ∈ w', (puncts.contains c) = false := by
      intro c hc
      rw [List.all_eq_true] at halnum
      exact alnum_not_punct (halnum.2 c hc)
    rw [stripBy_eq_self_of_all hall]
    exact hne
  · have hm : '-' ∈ w' := by simpa using hdash
    have hsur : '-' ∈ stripBy (puncts.contains ·) w' :=
      mem_stripBy_of_neg hm (by decide)
    intro h0
    rw [h0] at hsur
    exact absurd hsur (List.not_mem_nil _)

/-- The generator keeps at most the first four words. -/
theorem keptWords_length_le (d : List Char) : (keptWords d).length ≤ 4 := by
  unfold keptWords
  rw [List.length_map]
  calc ((((pySplit (d.map Char.toLower)).take 4).filter
        (fun w => pyIsAlnum w || w.contains '-'))).length
      ≤ ((pySplit (d.map Char.toLower)).take 4).length :=
        List.length_filter_le _ _
    _ ≤ 4 := by
        rw [List.length_take]
        exact min_le_left _ _

/-! ## Claim theorems -/

/-- C1 counterexample: for the description `"JSON to YAML converter!"` the
generated filename is not `json-to-yaml-converter.html`. -/
theorem C1_counterexample :
    generate_filename "JSON to YAML converter!".toList
      ≠ "json-to-yaml-converter.html".toList := by decide

/-- C1 amended: in `generate_filename` the keep-test (alphanumeric or
contains a hyphen) is applied to each word before its leading/trailing
punctuation is stripped, so the word `converter!` fails the test and is
discarded; the generated filename for `"JSON to YAML converter!"` is
`json-to-yaml.html`. -/
theorem C1_amended_filename :
    pyIsAlnum "converter!".toList = false ∧
    generate_filename "JSON to YAML converter!".toList
      = "json-to-yaml.html".toList :=
  ⟨by decide, by decide⟩

/-- C2 (code evaluated at the failing input): on the text
`"<!DOCTYPE html>"`, which contains a doctype token but no closing html tag,
rules 1–3 fail, `rfind` yields its `-1` sentinel so the fallback's end
position is `6`, and the extractor returns the 6-character prefix
`"<!DOCT"` instead of reporting absence. -/
theorem C2_missing_close_tag_eval :
    pyRFind closeHtmlTag "<!DOCTYPE html>".toList = -1 ∧
    extract_html_from_output "<!DOCTYPE html>".toList
      = some "<!DOCT".toList :=
  ⟨by decide, by decide⟩

/-- C3 counterexample: the extractor's result is not invariant under
recasing the doctype token — the texts `"<!doctype html>"` and
`"<!DOCTYPE html>"` agree up to letter casing, yet extraction yields absent
for the former and a result for the latter (the fallback's containment test
is case-sensitive, and its unchecked `rfind` sentinel lets the canonical
casing through). -/
theorem C3_counterexample :
    "<!doctype html>".toList.map Char.toLower
      = "<!DOCTYPE html>".toList.map Char.toLower ∧
    extract_html_from_output "<!doctype html>".toList
      ≠ extract_html_from_output "<!DOCTYPE html>".toList :=
  ⟨by decide, by decide⟩

/-- C3 amended: extraction rules 1–3 (the regex rules, compiled with
IGNORECASE and DOTALL) are case-insensitive — on any two texts that agree
up to letter casing, in particular under recasing the doctype token, each
of the three searches matches at exactly the same span, and the matched
span may cross line boundaries; rule 4's containment test, `find` and
`rfind` are case-sensitive, so the extractor as a whole is not
casing-invariant. -/
theorem C3_regex_rules_case_insensitive (s t : List Char)
    (h : s.map Char.toLower = t.map Char.toLower) :
    searchLazy fenceHtml nlFence s = searchLazy fenceHtml nlFence t ∧
    searchLazy pat2pre nlFence s = searchLazy pat2pre nlFence t ∧
    searchLazy doctypeTok closeHtmlTag s
      = searchLazy doctypeTok closeHtmlTag t :=
  ⟨searchLazy_congr _ _ h, searchLazy_congr _ _ h, searchLazy_congr _ _ h⟩

theorem C3_regex_rules_case_insensitive_witness :
    ("```\n<!dOcTyPe HtMl>\nX\n```".toList.map Char.toLower
      = "```\n<!DOCTYPE html>\nX\n```".toList.map Char.toLower) ∧
    (searchLazy fenceHtml nlFence "```\n<!dOcTyPe HtMl>\nX\n```".toList
      = searchLazy fenceHtml nlFence "```\n<!DOCTYPE html>\nX\n```".toList ∧
    searchLazy pat2pre nlFence "```\n<!dOcTyPe HtMl>\nX\n```".toList
      = searchLazy pat2pre nlFence "```\n<!DOCTYPE html>\nX\n```".toList ∧
    searchLazy doctypeTok closeHtmlTag "```\n<!dOcTyPe HtMl>\nX\n```".toList
      = searchLazy doctypeTok closeHtmlTag
        "```\n<!DOCTYPE html>\nX\n```".toList) :=
  ⟨by decide, C3_regex_rules_case_insensitive
    "```\n<!dOcTyPe HtMl>\nX\n```".toList
    "```\n<!DOCTYPE html>\nX\n```".toList (by decide)⟩

/-- C4: for every description with at least four alphanumeric words, the
generated filename is the hyphen-join of at most four nonempty segments
(the surviving words) followed by the `.html` suffix — the generator takes
the first four whitespace-separated words before filtering, so at most four
survive. -/
theorem C4_at_most_four_segments (d : List Char)
    (_hd : 4 ≤ alnumWordCount d) :
    ∃ ws : List (List Char), ws.length ≤ 4 ∧ (∀ w ∈ ws, w ≠ []) ∧
      generate_filename d
        = List.intercalate ("-".toList) ws ++ ".html".toList :=
  ⟨keptWords d, keptWords_length_le d, keptWords_ne_nil d, rfl⟩

theorem C4_at_most_four_segments_witness :
    4 ≤ alnumWordCount "json to yaml converter fast".toList ∧
    (∃ ws : List (List Char), ws.length ≤ 4 ∧ (∀ w ∈ ws, w ≠ []) ∧
      generate_filename "json to yaml converter fast".toList
        = List.intercalate ("-".toList) ws ++ ".html".toList) :=
  ⟨by decide, C4_at_most_four_segments _ (by decide)⟩

/-- C5 (code evaluated at the failing input): for the agent output
`"<!DOCTYPE html>é</html>"` the extractor returns the whole document, and
`main` reports size `23` — the character count `len(html)` — while the
UTF-8 encoding written to disk is `24` bytes long. -/
theorem C5_size_is_char_count_eval :
    extract_html_from_output "<!DOCTYPE html>é</html>".toList
      = some "<!DOCTYPE html>é</html>".toList ∧
    mainAfterInvoke "<!DOCTYPE html>é</html>".toList (some "t.html".toList)
      "x".toList = MainOutcome.success "t.html".toList 23 ∧
    utf8Len "<!DOCTYPE html>é</html>".toList = 24 :=
  ⟨by decide, by decide, by decide⟩

/-- C6: when the labeled-HTML-fence rule (rule 1) matches and a bare
doctype-to-closing-html-tag span is also present (rule 3 would match), the
extractor returns the labeled fence's stripped content: the rules are tried
in order and only the first successful rule's result is used. -/
theorem C6_labeled_fence_priority (output : List Char) (i j i3 j3 : Nat)
    (h1 : searchLazy fenceHtml nlFence output = some (i, j))
    (_h3 : searchLazy doctypeTok closeHtmlTag output = some (i3, j3)) :
    extract_html_from_output output = some (pyStrip (sliceN output (i + 8) j)) := by
  unfold extract_html_from_output
  rw [h1]

theorem C6_labeled_fence_priority_witness :
    searchLazy fenceHtml nlFence
      "```html\n<b>hi</b>\n```\n<!DOCTYPE html><p>x</p></html>".toList
      = some (0, 17) ∧
    searchLazy doctypeTok closeHtmlTag
      "```html\n<b>hi</b>\n```\n<!DOCTYPE html><p>x</p></html>".toList
      = some (22, 45) ∧
    extract_html_from_output
      "```html\n<b>hi</b>\n```\n<!DOCTYPE html><p>x</p></html>".toList
      = some (pyStrip (sliceN
        "```html\n<b>hi</b>\n```\n<!DOCTYPE html><p>x</p></html>".toList
        (0 + 8) 17)) :=
  ⟨by decide, by decide,
    C6_labeled_fence_priority _ 0 17 22 45 (by decide) (by decide)⟩

/-- C7: on a text with no doctype token in any casing and no code fence,
every extraction rule fails — rules 1 and 2 need a fence, rule 3 needs a
doctype token, and the fallback's containment test needs the canonical
doctype token — so the extractor returns absent and `main` takes the
extraction-failure path with a non-zero exit status. -/
theorem C7_no_doctype_no_fence (output : List Char)
    (outputArg : Option (List Char)) (description : List Char)
    (hdoc : findCI doctypeTok output = none)
    (hfence : findCI fenceTicks output = none) :
    extract_html_from_output output = none ∧
    mainAfterInvoke output outputArg description
      = MainOutcome.extractionFailure ∧
    exitCode (mainAfterInvoke output outputArg description) ≠ 0 := by
  have e1 : findCI fenceHtml output = none := by
    have hsplit : fenceHtml = fenceTicks ++ "html\n".toList := by decide
    rw [hsplit]
    exact findCI_append_none _ _ _ hfence
  have e2 : findCI pat2pre output = none := by
    have hsplit : pat2pre = fenceTicks ++ "\n<!DOCTYPE html>".toList := by decide
    rw [hsplit]
    exact findCI_append_none _ _ _ hfence
  have hcs : containsCS doctypeTok output = false := by
    unfold containsCS
    rw [findCSIdx_none _ _ hdoc]
    rfl
  have hex : extract_html_from_output output = none := by
    unfold extract_html_from_output
    rw [searchLazy_none _ _ _ e1, searchLazy_none _ _ _ e2,
      searchLazy_none _ _ _ hdoc, hcs]
    simp
  refine ⟨hex, ?_, ?_⟩ <;> simp [mainAfterInvoke, hex, exitCode]

theorem C7_no_doctype_no_fence_witness :
    findCI doctypeTok "hello world".toList = none ∧
    findCI fenceTicks "hello world".toList = none ∧
    (extract_html_from_output "hello world".toList = none ∧
      mainAfterInvoke "hello world".toList none "x".toList
        = MainOutcome.extractionFailure ∧
      exitCode (mainAfterInvoke "hello world".toList none "x".toList) ≠ 0) :=
  ⟨by decide, by decide,
    C7_no_doctype_no_fence "hello world".toList none "x".toList
      (by decide) (by decide)⟩

/-- C8 counterexample: the supplied output value `""` does not override the
generated filename — Python's `or` treats the empty string as falsy, so the
resolved path is the auto-generated name, not the supplied value. -/
theorem C8_counterexample :
    resolvedOutput (some []) "json converter".toList
      = "json-converter.html".toList ∧
    "json-converter.html".toList ≠ ([] : List Char) :=
  ⟨by decide, by decide⟩

/-- C8 amended: every nonempty supplied output value overrides the
auto-generated filename; an empty supplied value is falsy under Python's
`or` and the generated name is used instead. -/
theorem C8_nonempty_output_overrides (p d : List Char) (hp : p ≠ []) :
    resolvedOutput (some p) d = p := by
  have hne : p.isEmpty = false := by
    cases p with
    | nil => exact absurd rfl hp
    | cons c t => rfl
  show (if p.isEmpty = true then generate_filename d else p) = p
  rw [hne]
  simp

theorem C8_nonempty_output_overrides_witness :
    "converter.html".toList ≠ ([] : List Char) ∧
    resolvedOutput (some "converter.html".toList) "x".toList
      = "converter.html".toList :=
  ⟨by decide, C8_nonempty_output_overrides _ _ (by decide)⟩

/-- C9: whenever the extractor returns a document, that document is
whitespace-stripped — every successful branch of
`extract_html_from_output` returns `match.group(...).strip()`, and
stripping is idempotent. -/
theorem C9_extract_result_stripped (output doc : List Char)
    (h : extract_html_from_output output = some doc) :
    pyStrip doc = doc := by
  unfold extract_html_from_output at h
  split at h
  · rw [Option.some.injEq] at h
    rw [← h]
    exact stripBy_idem _ _
  · split at h
    · rw [Option.some.injEq] at h
      rw [← h]
      exact stripBy_idem _ _
    · split at h
      · rw [Option.some.injEq] at h
        rw [← h]
        exact stripBy_idem _ _
      · split at h
        · split at h
          · rw [Option.some.injEq] at h
            rw [← h]
            exact stripBy_idem _ _
          · exact absurd h (by simp)
        · exact absurd h (by simp)

theorem C9_extract_result_stripped_witness :
    extract_html_from_output "```html\n  <p>hi</p> \n```".toList
      = some "<p>hi</p>".toList ∧
    pyStrip "<p>hi</p>".toList = "<p>hi</p>".toList :=
  ⟨by decide, C9_extract_result_stripped "```html\n  <p>hi</p> \n```".toList
    "<p>hi</p>".toList (by decide)⟩

/-- C10: when the extractor returns the empty string (a rule matched but the
stripped content is empty, e.g. a labeled HTML fence with an empty body),
`main`'s truthiness check `if not html:` takes the extraction-failure path:
exit status 1, the failure message, and no file written. -/
theorem C10_empty_extract_fails (output : List Char)
    (outputArg : Option (List Char)) (description : List Char)
    (h : extract_html_from_output output = some []) :
    mainAfterInvoke output outputArg description
      = MainOutcome.extractionFailure ∧
    exitCode (mainAfterInvoke output outputArg description) ≠ 0 := by
  unfold mainAfterInvoke
  rw [h]
  simp [exitCode]

theorem C10_empty_extract_fails_witness :
    extract_html_from_output "```html\n\n```".toList = some [] ∧
    (mainAfterInvoke "```html\n\n```".toList none "x".toList
        = MainOutcome.extractionFailure ∧
      exitCode (mainAfterInvoke "```html\n\n```".toList none "x".toList) ≠ 0) :=
  ⟨by decide, C10_empty_extract_fails _ none _ (by decide)⟩
